import Mathlib

set_option autoImplicit false

/-!
Shallow embedding of the pipe-graph repository.

Two independent parts of the source are modelled:

* namespace `Img` — the image-processing module: `src/data/frame.rs`
  (`Frame` with a pixel list), `src/traits/processor.rs` (trait
  `Processor` with `process(&self, input: &mut Frame)`, modelled as a
  state transformer `Frame → Frame` since the call mutates the frame it
  is given), `src/processors/clear_channel.rs` (`ClearChannel`) and
  `src/processors/procees_list.rs` (`ProcessList`).

* namespace `Pipe` — the pipeline sketch in `src/main.rs`: `Frame`
  (width/height/channels and a byte buffer), the stage kinds
  `CropStage`, `MergeStage`, `SourceStage` (merged into one record with
  a `kind` tag since they share the base-entity fields; `CropStage`
  additionally holds a parameter map that no modelled operation reads,
  so it is omitted), and `Pipeline` with `add_stage`, `connect` and
  `step`.  The Rust `u32` arithmetic in `Frame::new` wraps modulo
  `2^32`, written explicitly.  `HashMap<String, _>` with unique keys is
  modelled as an association list.
-/

namespace Img

/-- `src/data/frame.rs`: a frame is a width, a height and a pixel list;
each pixel is an `(u8, u8, u8)` triple, modelled as a `Nat` triple. -/
structure Frame where
  width : Nat
  height : Nat
  pixels : List (Nat × Nat × Nat)

/-- `src/processors/clear_channel.rs`: the channel selector. -/
inductive Channel where
  | red
  | green
  | blue
deriving DecidableEq

/-- `ClearChannel::process` from `src/processors/clear_channel.rs`: for
every pixel of the input frame, the selected component is overwritten
with `0` in place.  The `&mut Frame` parameter is modelled by returning
the updated frame. -/
def ClearChannel.process (c : Channel) (input : Frame) : Frame :=
  match c with
  | Channel.red => { input with pixels := input.pixels.map (fun q => (0, q.2.1, q.2.2)) }
  | Channel.green => { input with pixels := input.pixels.map (fun q => (q.1, 0, q.2.2)) }
  | Channel.blue => { input with pixels := input.pixels.map (fun q => (q.1, q.2.1, 0)) }

/-- The component of a pixel selected by a channel. -/
def channelComp : Channel → Nat × Nat × Nat → Nat
  | Channel.red => fun q => q.1
  | Channel.green => fun q => q.2.1
  | Channel.blue => fun q => q.2.2

/-- The per-pixel action of `ClearChannel`: zero the selected component. -/
def zeroChannel : Channel → Nat × Nat × Nat → Nat × Nat × Nat
  | Channel.red => fun q => (0, q.2.1, q.2.2)
  | Channel.green => fun q => (q.1, 0, q.2.2)
  | Channel.blue => fun q => (q.1, q.2.1, 0)

/-- The concrete implementors of trait `Processor` in the repository:
`ClearChannel` and `ProcessList` itself (whose `Vec<Box<dyn Processor>>`
may nest further lists). -/
inductive Processor where
  | clearChannel (c : Channel)
  | processList (ps : List Processor)

/-- `Processor::process` dispatched over the concrete implementors.  The
`ProcessList` case is the `for` loop of `src/processors/procees_list.rs`:
each contained processor is applied to the frame in order. -/
def Processor.process : Processor → Frame → Frame
  | Processor.clearChannel c, f => ClearChannel.process c f
  | Processor.processList [], f => f
  | Processor.processList (p :: ps), f =>
      Processor.process (Processor.processList ps) (Processor.process p f)

/-- `src/processors/procees_list.rs`: `ProcessList` owns an ordered list
of processors. -/
structure ProcessList where
  processes : List Processor

/-- `ProcessList::new` via `Default`: the empty list. -/
def ProcessList.new : ProcessList := ⟨[]⟩

/-- `ProcessList::add_processor`: pushes a processor at the end. -/
def ProcessList.add_processor (l : ProcessList) (p : Processor) : ProcessList :=
  ⟨l.processes ++ [p]⟩

/-- `<ProcessList as Processor>::process` on a wrapped list. -/
def ProcessList.process (l : ProcessList) (f : Frame) : Frame :=
  Processor.process (Processor.processList l.processes) f

end Img

namespace Pipe

/-- `u32` arithmetic in `src/main.rs` wraps modulo this bound. -/
def u32Bound : Nat := 2 ^ 32

/-- `Frame` from `src/main.rs`: width, height, channels (`u32`) and a
byte buffer `Vec<u8>`. -/
structure Frame where
  width : Nat
  height : Nat
  channels : Nat
  data : List Nat

/-- `Frame::new(w, h, c)`: a zero-filled buffer of `w * h * c` bytes;
the product is computed in `u32` and therefore wraps modulo `2^32`. -/
def Frame.new (w h c : Nat) : Frame :=
  { width := w, height := h, channels := c
    data := List.replicate ((w * h * c) % u32Bound) 0 }

/-- The three concrete `Stage` implementors of `src/main.rs`. -/
inductive StageKind where
  | crop
  | merge
  | source
deriving DecidableEq

/-- A stage: the `BaseEntity` fields (`label`, `inputs`) plus the cached
`last_output` every implementor carries.  The `kind` tag replaces the
`dyn Stage` dispatch.  `CropStage` also owns a parameter map that none
of the modelled operations read, so it is left out. -/
structure StageState where
  label : String
  inputs : List String
  lastOutput : Option Frame
  kind : StageKind

/-- `CropStage::new`: empty wiring, no cached output. -/
def CropStage.new (label : String) : StageState :=
  { label := label, inputs := [], lastOutput := none, kind := StageKind.crop }

/-- `MergeStage::new`. -/
def MergeStage.new (label : String) : StageState :=
  { label := label, inputs := [], lastOutput := none, kind := StageKind.merge }

/-- `SourceStage::new`. -/
def SourceStage.new (label : String) : StageState :=
  { label := label, inputs := [], lastOutput := none, kind := StageKind.source }

/-- `Entity::get_input_labels`: `CropStage` and `MergeStage` expose
`base.inputs`; `SourceStage` returns an empty slice. -/
def StageState.getInputLabels (s : StageState) : List String :=
  match s.kind with
  | StageKind.source => []
  | StageKind.crop => s.inputs
  | StageKind.merge => s.inputs

/-- `Entity::connect`: `CropStage` and `MergeStage` overwrite
`base.inputs` with the given list; `SourceStage::connect` is a no-op. -/
def StageState.connectSet (s : StageState) (ls : List String) : StageState :=
  match s.kind with
  | StageKind.source => s
  | StageKind.crop => { s with inputs := ls }
  | StageKind.merge => { s with inputs := ls }

/-- `Stage::process` for the three implementors, as a pure function from
the resolved input frames to the new cached output.  `none` models the
`Err(_)` paths, on which `last_output` is left untouched:
* `CropStage` demands at least one input and stores `Frame::new(100, 100,
  input.channels)`;
* `MergeStage` demands at least two inputs and stores `Frame::new(w, h,
  k)` with `k = inputs.len() as u32` and `w`, `h` from the first input;
* `SourceStage` always stores `Frame::new(1920, 1080, 3)`. -/
def stageProcess : StageKind → List Frame → Option Frame
  | StageKind.crop, [] => none
  | StageKind.crop, i :: _ => some (Frame.new 100 100 i.channels)
  | StageKind.merge, ins =>
      if ins.length < 2 then none
      else
        match ins with
        | [] => none
        | i :: _ => some (Frame.new i.width i.height (ins.length % u32Bound))
  | StageKind.source, _ => some (Frame.new 1920 1080 3)

/-- The `HashMap<String, Rc<RefCell<dyn Stage>>>` of the pipeline,
modelled as an association list (keys are unique by construction). -/
abbrev StageMap : Type := List (String × StageState)

/-- `HashMap::get` / `contains_key`: first entry with the given label. -/
def findStage : StageMap → String → Option StageState
  | [], _ => none
  | (k, v) :: rest, l => if k = l then some v else findStage rest l

/-- In-place mutation of the stage stored under a label (the
`RefCell::borrow_mut` updates). -/
def updateStage : StageMap → String → (StageState → StageState) → StageMap
  | [], _, _ => []
  | (k, v) :: rest, l, f =>
      if k = l then (k, f v) :: updateStage rest l f
      else (k, v) :: updateStage rest l f

/-- The `Pipeline` of `src/main.rs`: the stage map plus the execution
order list. -/
structure Pipeline where
  stages : StageMap
  execution_order : List String

/-- `Pipeline::new`. -/
def Pipeline.new : Pipeline :=
  { stages := [], execution_order := [] }

/-- `Pipeline::add_stage`: rejects a duplicate label before touching any
state; otherwise inserts the stage and appends its label to the
execution order.  The `Result<(), String>` is the `Option String`
component; the possibly-updated pipeline is the first component. -/
def Pipeline.add_stage (p : Pipeline) (stage : StageState) : Pipeline × Option String :=
  if (findStage p.stages stage.label).isSome then
    (p, some ("Stage with label " ++ stage.label ++ " already exists"))
  else
    ({ stages := p.stages ++ [(stage.label, stage)]
       execution_order := p.execution_order ++ [stage.label] }, none)

/-- `Pipeline::connect(from_label, to_label)`: fails if the target or
the source label is unregistered; otherwise appends `from_label` to the
target's input list (via `get_input_labels` / `Entity::connect`). -/
def Pipeline.connect (p : Pipeline) (from_label to_label : String) : Pipeline × Option String :=
  match findStage p.stages to_label with
  | none => (p, some ("Target stage " ++ to_label ++ " not found"))
  | some _ =>
      if (findStage p.stages from_label).isNone then
        (p, some ("Source stage " ++ from_label ++ " not found"))
      else
        ({ p with
            stages := updateStage p.stages to_label
              (fun t => t.connectSet (t.getInputLabels ++ [from_label])) }, none)

/-- The input-gathering loop of `Pipeline::step`: walk the declared
input labels left to right; a label absent from the map is silently
skipped; a present parent contributes its cached frame, or clears the
`valid_inputs` flag when it has produced none. -/
def resolveInputs (m : StageMap) : List String → List Frame × Bool
  | [] => ([], true)
  | il :: rest =>
      match findStage m il with
      | none => resolveInputs m rest
      | some parent =>
          match parent.lastOutput with
          | some f =>
              let r := resolveInputs m rest
              (f :: r.1, r.2)
          | none =>
              let r := resolveInputs m rest
              (r.1, false)

/-- One iteration of the `step` loop for the stage registered under
`label`: resolve its inputs against the current map and, when all
present parents have an output, run `process` and store its result.
(The `unwrap` on the label lookup cannot fail for labels coming from
`execution_order`; the `none` branch keeps the function total.) -/
def stepOne (m : StageMap) (label : String) : StageMap :=
  match findStage m label with
  | none => m
  | some s =>
      let r := resolveInputs m s.getInputLabels
      if r.2 then
        match stageProcess s.kind r.1 with
        | some out => updateStage m label (fun t => { t with lastOutput := some out })
        | none => m
      else m

/-- `Pipeline::step`: run the loop body over `execution_order`, each
stage reading the map as already updated by the stages before it. -/
def Pipeline.step (p : Pipeline) : Pipeline :=
  { p with stages := p.execution_order.foldl stepOne p.stages }

/-- The cached output of the stage registered under a label. -/
def lastFrameOf (m : StageMap) (l : String) : Option Frame :=
  match findStage m l with
  | none => none
  | some s => s.lastOutput

end Pipe

open Pipe

/-! Concrete fixtures used by the counterexamples and witnesses. -/

/-- A pipeline registering a source `a` before a crop `b`, wired `a → b`. -/
def pSourceFirst : Pipeline :=
  (((Pipeline.new.add_stage (SourceStage.new "a")).1.add_stage (CropStage.new "b")).1.connect "a" "b").1

/-- The same stages and wiring as `pSourceFirst`, but the crop `b` is
registered (hence executed) before the source `a`. -/
def pCropFirst : Pipeline :=
  (((Pipeline.new.add_stage (CropStage.new "b")).1.add_stage (SourceStage.new "a")).1.connect "a" "b").1

/-- A crop `c` executed before its upstream source `s`, wired `s → c`. -/
def pSkip : Pipeline :=
  (((Pipeline.new.add_stage (CropStage.new "c")).1.add_stage (SourceStage.new "s")).1.connect "s" "c").1

/-- A pipeline holding a single crop stage labelled `x`. -/
def pOne : Pipeline :=
  (Pipeline.new.add_stage (CropStage.new "x")).1

/-- A one-pixel test frame for the image-processing module. -/
def fr0 : Img.Frame := ⟨1, 1, [(1, 2, 3)]⟩

/-! Helper lemmas about the association-list stage map. -/

theorem findStage_updateStage_self (m : StageMap) (l : String)
    (f : StageState → StageState) (s : StageState)
    (h : findStage m l = some s) :
    findStage (updateStage m l f) l = some (f s) := by
  induction m with
  | nil => simp [findStage] at h
  | cons e rest ih =>
    obtain ⟨k, v⟩ := e
    by_cases hk : k = l
    · subst hk
      simp [findStage] at h
      simp [updateStage, findStage, h]
    · simp [findStage, hk] at h
      simp [updateStage, findStage, hk, ih h]

theorem findStage_updateStage_ne (m : StageMap) (l x : String)
    (f : StageState → StageState) (h : x ≠ l) :
    findStage (updateStage m l f) x = findStage m x := by
  induction m with
  | nil => simp [updateStage]
  | cons e rest ih =>
    obtain ⟨k, v⟩ := e
    by_cases hk : k = l
    · subst hk
      have hkx : ¬ (k = x) := fun he => h he.symm
      simp [updateStage, findStage, hkx, ih]
    · by_cases hx : k = x
      · simp [updateStage, findStage, hk, hx, h]
      · simp [updateStage, findStage, hk, hx, ih]

theorem resolveInputs_flag_of_unready (m : StageMap) (ls : List String)
    (u : String) (su : StageState)
    (hmem : u ∈ ls) (hfu : findStage m u = some su) (hout : su.lastOutput = none) :
    (resolveInputs m ls).2 = false := by
  induction ls with
  | nil => cases hmem
  | cons il rest ih =>
    rcases List.mem_cons.mp hmem with h | h
    · subst h
      simp [resolveInputs, hfu, hout]
    · have hr := ih h
      cases hfind : findStage m il with
      | none => simpa [resolveInputs, hfind] using hr
      | some parent =>
        cases hop : parent.lastOutput with
        | none => simp [resolveInputs, hfind, hop]
        | some fr => simpa [resolveInputs, hfind, hop] using hr

/-! Helper lemmas about `ClearChannel` and `ProcessList`. -/

theorem clearChannel_pixels (c : Img.Channel) (f : Img.Frame) :
    (Img.ClearChannel.process c f).pixels = f.pixels.map (Img.zeroChannel c) := by
  cases c <;> rfl

theorem channelComp_zeroChannel_self (c : Img.Channel) (q : Nat × Nat × Nat) :
    Img.channelComp c (Img.zeroChannel c q) = 0 := by
  cases c <;> rfl

theorem channelComp_zeroChannel_ne (c c2 : Img.Channel) (q : Nat × Nat × Nat)
    (h : c2 ≠ c) :
    Img.channelComp c2 (Img.zeroChannel c q) = Img.channelComp c2 q := by
  cases c <;> cases c2 <;> first | rfl | exact absurd rfl h

theorem getD_map_pixel (g : Nat × Nat × Nat → Nat × Nat × Nat)
    (l : List (Nat × Nat × Nat)) (i : Nat) (hi : i < l.length) :
    (l.map g).getD i (0, 0, 0) = g (l.getD i (0, 0, 0)) := by
  induction l generalizing i with
  | nil => simp at hi
  | cons x xs ih =>
    cases i with
    | zero => rfl
    | succ n =>
      have hn : n < xs.length := Nat.lt_of_succ_lt_succ hi
      simpa [List.getD] using ih n hn

theorem processAll_append (ps : List Img.Processor) (p : Img.Processor) (f : Img.Frame) :
    Img.Processor.process (Img.Processor.processList (ps ++ [p])) f =
      p.process (Img.Processor.process (Img.Processor.processList ps) f) := by
  induction ps generalizing f with
  | nil => simp [Img.Processor.process]
  | cons q qs ih =>
    simp only [List.cons_append, Img.Processor.process]
    exact ih (q.process f)

/-! Claim theorems. -/

/-- C1 (counterexample): snapshot isolation fails — the position of a
stage in the execution order does affect the inputs it observes within
one tick.  `pSourceFirst` and `pCropFirst` register the same two stages
with the same wiring `a → b`, differing only in registration (hence
execution) order.  After one `step` from the initial state the crop `b`
has produced an output in `pSourceFirst` (it observed the frame its
upstream `a` produced during the same tick) but none in `pCropFirst`. -/
theorem step_order_dependence_cex :
    (lastFrameOf (Pipeline.step pSourceFirst).stages "b").isSome = true ∧
    (lastFrameOf (Pipeline.step pCropFirst).stages "b").isSome = false ∧
    lastFrameOf (Pipeline.step pSourceFirst).stages "b" ≠
      lastFrameOf (Pipeline.step pCropFirst).stages "b" := by
  refine ⟨rfl, rfl, fun h => ?_⟩
  exact Bool.noConfusion (show true = false from congrArg Option.isSome h)

/-- C1 (amended): `Pipeline::step` runs the stages sequentially in
registration order and resolves inputs from the live stage map, so a
stage wired to an upstream that executes earlier in the same tick
observes that upstream's same-tick output, not its end-of-previous-tick
output.  Concretely: for a pipeline whose execution order is a source
`a` followed by a crop `b` wired `a → b`, one `step` leaves `b` holding
the crop of the frame `a` produced during that very tick (channel count
3), regardless of what `a` held before the tick. -/
theorem step_reads_same_tick_upstream
    (p : Pipeline) (a b : String) (sa sb : StageState)
    (hord : p.execution_order = [a, b])
    (hab : b ≠ a)
    (ha : findStage p.stages a = some sa) (hka : sa.kind = StageKind.source)
    (hb : findStage p.stages b = some sb) (hkb : sb.kind = StageKind.crop)
    (hin : sb.inputs = [a]) :
    lastFrameOf (Pipeline.step p).stages b = some (Frame.new 100 100 3) := by
  have hstep : (Pipeline.step p).stages = stepOne (stepOne p.stages a) b := by
    unfold Pipeline.step
    rw [hord]
    rfl
  have hgl : sa.getInputLabels = [] := by
    unfold StageState.getInputLabels
    rw [hka]
  have h1 : stepOne p.stages a =
      updateStage p.stages a (fun t => { t with lastOutput := some (Frame.new 1920 1080 3) }) := by
    simp [stepOne, ha, hgl, hka, resolveInputs, stageProcess]
  have hfb1 : findStage (stepOne p.stages a) b = some sb := by
    rw [h1, findStage_updateStage_ne _ _ _ _ hab, hb]
  have hfa1 : findStage (stepOne p.stages a) a =
      some { sa with lastOutput := some (Frame.new 1920 1080 3) } := by
    rw [h1]
    exact findStage_updateStage_self p.stages a _ sa ha
  have hgl2 : sb.getInputLabels = [a] := by
    unfold StageState.getInputLabels
    rw [hkb]
    exact hin
  have h2 : stepOne (stepOne p.stages a) b =
      updateStage (stepOne p.stages a) b
        (fun t => { t with lastOutput := some (Frame.new 100 100 3) }) := by
    generalize hm1 : stepOne p.stages a = m1 at hfb1 hfa1 ⊢
    simp [stepOne, hfb1, hgl2, resolveInputs, hfa1, hkb, stageProcess, Frame.new]
  rw [hstep, h2]
  unfold lastFrameOf
  rw [findStage_updateStage_self _ _ _ sb hfb1]

/-- Witness for `step_reads_same_tick_upstream` at the concrete pipeline
`pSourceFirst`. -/
theorem step_reads_same_tick_upstream_witness :
    lastFrameOf (Pipeline.step pSourceFirst).stages "b" = some (Frame.new 100 100 3) :=
  step_reads_same_tick_upstream pSourceFirst "a" "b"
    (SourceStage.new "a") ⟨"b", ["a"], none, StageKind.crop⟩
    rfl (by decide) rfl rfl rfl rfl rfl

/-- C3 (counterexample): in `pSkip` the crop `c` declares the upstream
`s`, which is registered but has not yet produced a frame.  During the
first `step` the crop is skipped outright — its `process` is never run
and it ends the tick with no output — instead of being invoked with an
empty/default marker as the claim states. -/
theorem step_skips_unready_stage_cex :
    (findStage pSkip.stages "s").isSome = true ∧
    lastFrameOf pSkip.stages "s" = none ∧
    (lastFrameOf (Pipeline.step pSkip).stages "c").isSome = false :=
  ⟨rfl, rfl, rfl⟩

/-- C3 (amended): when a stage declares an upstream label that is
registered in the map but whose stage has not yet produced any output,
the `step` loop body skips the stage entirely: `process` is not invoked
and the whole stage map is left unchanged by that iteration.  (An
upstream label absent from the map is instead silently dropped from the
resolved inputs.) -/
theorem stepOne_skips_stage_with_unready_upstream
    (m : StageMap) (b u : String) (sb su : StageState)
    (hb : findStage m b = some sb)
    (hu : u ∈ sb.getInputLabels)
    (hfu : findStage m u = some su)
    (hout : su.lastOutput = none) :
    stepOne m b = m := by
  have hflag : (resolveInputs m sb.getInputLabels).2 = false :=
    resolveInputs_flag_of_unready m sb.getInputLabels u su hu hfu hout
  simp [stepOne, hb, hflag]

/-- Witness for `stepOne_skips_stage_with_unready_upstream` at the
concrete pipeline `pSkip`. -/
theorem stepOne_skips_stage_with_unready_upstream_witness :
    stepOne pSkip.stages "c" = pSkip.stages :=
  stepOne_skips_stage_with_unready_upstream pSkip.stages "c" "s"
    ⟨"c", ["s"], none, StageKind.crop⟩ (SourceStage.new "s")
    rfl (by decide) rfl rfl

/-- C6: `Pipeline::add_stage` rejects a stage whose label is already
registered, returning an error at registration time and leaving the
stage collection and the execution order unchanged. -/
theorem add_stage_duplicate_rejected :
    ∀ (p : Pipeline) (s : StageState),
      (findStage p.stages s.label).isSome = true →
      (p.add_stage s).1 = p ∧ ((p.add_stage s).2).isSome = true := by
  intro p s h
  simp [Pipeline.add_stage, h]

/-- Witness for `add_stage_duplicate_rejected` on the one-stage pipeline
`pOne`. -/
theorem add_stage_duplicate_rejected_witness :
    (pOne.add_stage (CropStage.new "x")).1 = pOne ∧
    ((pOne.add_stage (CropStage.new "x")).2).isSome = true :=
  add_stage_duplicate_rejected pOne (CropStage.new "x") rfl

/-- C7 (counterexample): forward references are not legal wiring.  In
`pOne` only the stage `x` is registered; connecting from the
not-yet-registered label `y` to `x` fails with an error and leaves the
pipeline unchanged, instead of succeeding as the claim states. -/
theorem connect_forward_reference_cex :
    ((pOne.connect "y" "x").2).isSome = true ∧ (pOne.connect "y" "x").1 = pOne :=
  ⟨rfl, rfl⟩

/-- C7 (amended): `Pipeline::connect` requires both endpoints to be
already registered — an unknown target or source label makes it fail
with an error, leaving the pipeline unchanged — while a self-loop on a
registered stage is legal and appends the stage's own label to its
input list (for the stage kinds whose `connect` stores wiring, i.e. all
but `SourceStage`, whose `Entity` implementation ignores wiring). -/
theorem connect_requires_registered_endpoints_allows_self_loop :
    (∀ (p : Pipeline) (a b : String), findStage p.stages b = none →
      (p.connect a b).1 = p ∧ ((p.connect a b).2).isSome = true) ∧
    (∀ (p : Pipeline) (a b : String), findStage p.stages a = none →
      (p.connect a b).1 = p ∧ ((p.connect a b).2).isSome = true) ∧
    (∀ (p : Pipeline) (l : String) (s : StageState), findStage p.stages l = some s →
      (p.connect l l).2 = none ∧
      (s.kind ≠ StageKind.source →
        findStage ((p.connect l l).1).stages l =
          some { s with inputs := s.inputs ++ [l] })) := by
  refine ⟨?_, ?_, ?_⟩
  · intro p a b h
    simp [Pipeline.connect, h]
  · intro p a b h
    cases hfb : findStage p.stages b with
    | none => simp [Pipeline.connect, hfb]
    | some t => simp [Pipeline.connect, hfb, h]
  · intro p l s h
    constructor
    · simp [Pipeline.connect, h]
    · intro hk
      simp only [Pipeline.connect, h, Option.isNone_some, Bool.false_eq_true, if_false]
      rw [findStage_updateStage_self p.stages l _ s h]
      rcases s with ⟨lab, ins, lo, k⟩
      cases k with
      | source => exact absurd rfl hk
      | crop => rfl
      | merge => rfl

/-- Witness for `connect_requires_registered_endpoints_allows_self_loop`
at concrete pipelines. -/
theorem connect_requires_registered_endpoints_allows_self_loop_witness :
    (Pipeline.new.connect "q" "r").1 = Pipeline.new ∧
    (pOne.connect "x" "x").2 = none ∧
    findStage ((pOne.connect "x" "x").1).stages "x" =
      some { CropStage.new "x" with inputs := (CropStage.new "x").inputs ++ ["x"] } :=
  ⟨(connect_requires_registered_endpoints_allows_self_loop.1 Pipeline.new "q" "r" rfl).1,
   (connect_requires_registered_endpoints_allows_self_loop.2.2 pOne "x" (CropStage.new "x") rfl).1,
   (connect_requires_registered_endpoints_allows_self_loop.2.2 pOne "x" (CropStage.new "x") rfl).2
     (by decide)⟩

/-- C2 (counterexample): the input frame is mutated by
`ClearChannel::process` (the trait method takes `&mut Frame`): on the
one-pixel frame `fr0` the call changes the pixel content, so the input
frame's byte content is not left unchanged and no new frame is
allocated in its stead. -/
theorem clearChannel_mutates_input_cex :
    (Img.ClearChannel.process Img.Channel.red fr0).pixels ≠ fr0.pixels := by
  decide

/-- C2 (amended): `Processor::process` receives the frame by mutable
reference and updates it in place.  `ClearChannel` preserves the frame's
width and height, but whenever some pixel has a non-zero value in the
selected channel the pixel content of the frame it was handed is
changed rather than a fresh frame being allocated. -/
theorem clearChannel_in_place_update :
    ∀ (c : Img.Channel) (f : Img.Frame),
      (Img.ClearChannel.process c f).width = f.width ∧
      (Img.ClearChannel.process c f).height = f.height ∧
      ∀ (i : Nat), i < f.pixels.length →
        Img.channelComp c (f.pixels.getD i (0, 0, 0)) ≠ 0 →
        (Img.ClearChannel.process c f).pixels ≠ f.pixels := by
  intro c f
  refine ⟨by cases c <;> rfl, by cases c <;> rfl, ?_⟩
  intro i hi hc heq
  rw [clearChannel_pixels] at heq
  have h1 := congrArg (fun l => l.getD i (0, 0, 0)) heq
  simp only at h1
  rw [getD_map_pixel _ _ _ hi] at h1
  have h2 := congrArg (Img.channelComp c) h1
  rw [channelComp_zeroChannel_self] at h2
  exact hc h2.symm

/-- Witness for `clearChannel_in_place_update` on the one-pixel frame
`fr0`. -/
theorem clearChannel_in_place_update_witness :
    (Img.ClearChannel.process Img.Channel.green fr0).pixels ≠ fr0.pixels ∧
    (Img.ClearChannel.process Img.Channel.green fr0).width = fr0.width :=
  ⟨(clearChannel_in_place_update Img.Channel.green fr0).2.2 0 (by decide) (by decide),
   (clearChannel_in_place_update Img.Channel.green fr0).1⟩

/-- C8 (counterexample): `Frame::new` computes the buffer size in `u32`,
which wraps: at width 65536, height 65536, 1 channel the product
overflows to 0, so the byte buffer does not have length
`width * height * channels`. -/
theorem frame_new_length_overflow_cex :
    (Frame.new 65536 65536 1).data.length ≠ 65536 * 65536 * 1 := by
  decide

/-- C8 (amended): every frame built by `Frame::new(w, h, c)` has a byte
buffer of length `(w * h * c) mod 2^32` — equal to `w * h * c` whenever
that product fits in a `u32` — and every frame a stage stores as its
output (all come from `Frame::new`) satisfies
`data.length = (width * height * channels) mod 2^32`. -/
theorem frame_length_mod_u32 :
    (∀ (w h c : Nat), (Frame.new w h c).data.length = (w * h * c) % u32Bound) ∧
    (∀ (w h c : Nat), w * h * c < u32Bound → (Frame.new w h c).data.length = w * h * c) ∧
    (∀ (k : StageKind) (ins : List Frame) (f : Frame),
      stageProcess k ins = some f →
      f.data.length = (f.width * f.height * f.channels) % u32Bound) := by
  refine ⟨?_, ?_, ?_⟩
  · intro w h c
    simp [Frame.new]
  · intro w h c hlt
    simp [Frame.new, Nat.mod_eq_of_lt hlt]
  · intro k ins f hf
    cases k with
    | crop =>
      cases ins with
      | nil => simp [stageProcess] at hf
      | cons i rest =>
        simp [stageProcess] at hf
        rw [← hf]
        simp [Frame.new]
    | merge =>
      simp only [stageProcess] at hf
      split at hf
      · cases hf
      · cases ins with
        | nil => cases hf
        | cons i rest =>
          simp at hf
          rw [← hf]
          simp [Frame.new]
    | source =>
      simp [stageProcess] at hf
      rw [← hf]
      simp [Frame.new]

/-- Witness for `frame_length_mod_u32`: a small non-overflowing frame
and the frame a source stage stores. -/
theorem frame_length_mod_u32_witness :
    (Frame.new 2 3 4).data.length = 2 * 3 * 4 ∧
    (Frame.new 1920 1080 3).data.length =
      ((Frame.new 1920 1080 3).width * (Frame.new 1920 1080 3).height *
        (Frame.new 1920 1080 3).channels) % u32Bound :=
  ⟨frame_length_mod_u32.2.1 2 3 4 (by decide),
   frame_length_mod_u32.2.2 StageKind.source [] (Frame.new 1920 1080 3) rfl⟩

/-- C9: `ClearChannel::process` with a chosen channel sets exactly that
component of every pixel to 0 and leaves the other two components of
every pixel, the pixel count, and the frame's width and height
unchanged. -/
theorem clearChannel_zeroes_exactly_one_channel :
    ∀ (c : Img.Channel) (f : Img.Frame),
      (Img.ClearChannel.process c f).width = f.width ∧
      (Img.ClearChannel.process c f).height = f.height ∧
      (Img.ClearChannel.process c f).pixels.length = f.pixels.length ∧
      ∀ (i : Nat), i < f.pixels.length →
        Img.channelComp c ((Img.ClearChannel.process c f).pixels.getD i (0, 0, 0)) = 0 ∧
        ∀ (c2 : Img.Channel), c2 ≠ c →
          Img.channelComp c2 ((Img.ClearChannel.process c f).pixels.getD i (0, 0, 0)) =
            Img.channelComp c2 (f.pixels.getD i (0, 0, 0)) := by
  intro c f
  refine ⟨by cases c <;> rfl, by cases c <;> rfl, ?_, ?_⟩
  · rw [clearChannel_pixels]
    simp
  · intro i hi
    rw [clearChannel_pixels, getD_map_pixel _ _ _ hi]
    exact ⟨channelComp_zeroChannel_self c _,
      fun c2 hne => channelComp_zeroChannel_ne c c2 _ hne⟩

/-- Witness for `clearChannel_zeroes_exactly_one_channel` on the
one-pixel frame `fr0`: clearing red zeroes the red component of pixel 0
and keeps its green component. -/
theorem clearChannel_zeroes_exactly_one_channel_witness :
    Img.channelComp Img.Channel.red
        ((Img.ClearChannel.process Img.Channel.red fr0).pixels.getD 0 (0, 0, 0)) = 0 ∧
    Img.channelComp Img.Channel.green
        ((Img.ClearChannel.process Img.Channel.red fr0).pixels.getD 0 (0, 0, 0)) =
      Img.channelComp Img.Channel.green (fr0.pixels.getD 0 (0, 0, 0)) :=
  ⟨((clearChannel_zeroes_exactly_one_channel Img.Channel.red fr0).2.2.2 0 (by decide)).1,
   ((clearChannel_zeroes_exactly_one_channel Img.Channel.red fr0).2.2.2 0 (by decide)).2
     Img.Channel.green (by decide)⟩

/-- C10: `ProcessList::process` is ordered sequential composition: the
empty list is the identity on frames, and appending a processor via
`add_processor` post-composes its action after everything already in
the list. -/
theorem processList_ordered_composition :
    (∀ (f : Img.Frame), Img.ProcessList.new.process f = f) ∧
    (∀ (l : Img.ProcessList) (p : Img.Processor) (f : Img.Frame),
      (l.add_processor p).process f = p.process (l.process f)) := by
  constructor
  · intro f
    simp [Img.ProcessList.process, Img.ProcessList.new, Img.Processor.process]
  · intro l p f
    exact processAll_append l.processes p f
